import Mathlib

/-!
Verification of the cashier cart program (`cashier_system.py`).

The embedding mirrors the Python source:
* `CartItem` is the dataclass with `name`, `price`, `quantity`; monetary
  values are modelled as exact rationals (the spec calls them decimals) and
  quantities as integers (Python `int`).
* `CashierCart.items` is a Python `dict` keyed by `name.strip().lower()`:
  we model it as an insertion-ordered association list, as Python dicts
  preserve insertion order and update entries in place.
* The mutating methods return the new cart (plus the returned `bool` where
  the Python method returns one).
* `save_receipt` is modelled as the list of CSV rows it writes, each row a
  list of cell strings, with Python `:.2f` / `:.1f` fixed-point formatting
  modelled by `fmtFixed` (round half to even).
* `checkoutStep` is the body of menu choice `"7"` in `run_cashier`.
-/

/-- Python `str.strip`/`str.lower` whitespace test (ASCII whitespace). -/
def isSpaceChar (c : Char) : Bool :=
  c = ' ' || c = '\t' || c = '\n' || c = '\r' || c = '\x0b' || c = '\x0c'

/-- Python `str.strip()`: drop leading and trailing whitespace. -/
def pyStrip (s : String) : String :=
  String.mk (((s.data.dropWhile isSpaceChar).reverse.dropWhile isSpaceChar).reverse)

/-- Lowercasing of a single character (ASCII range, as used by the keys). -/
def toLowerChar (c : Char) : Char :=
  if 'A' ≤ c ∧ c ≤ 'Z' then Char.ofNat (c.toNat + 32) else c

/-- Python `str.lower()` on the characters of the string. -/
def pyLower (s : String) : String :=
  String.mk (s.data.map toLowerChar)

/-- A line item, from the `CartItem` dataclass (name, price, quantity). -/
structure CartItem where
  name : String
  price : ℚ
  quantity : ℤ
deriving Repr, DecidableEq

/-- The derived line total `price * quantity` (the `total` property). -/
def CartItem.total (i : CartItem) : ℚ := i.price * i.quantity

/-- Cart state, from the `CashierCart` dataclass: an insertion-ordered
mapping from normalized key to item, plus discount and tax percentages. -/
structure CashierCart where
  items : List (String × CartItem)
  discount_percent : ℚ
  tax_percent : ℚ
deriving Repr, DecidableEq

/-- The key normalization `name.strip().lower()` used by every cart method. -/
def normKey (name : String) : String := pyLower (pyStrip name)

/-- Dictionary lookup on the association list (first matching key). -/
def lookupItem (items : List (String × CartItem)) (key : String) : Option CartItem :=
  match items with
  | [] => none
  | (k, v) :: rest => if k = key then some v else lookupItem rest key

/-- Membership test `key in self.items`. -/
def containsKey (items : List (String × CartItem)) (key : String) : Bool :=
  (lookupItem items key).isSome

/-- The `dict` write performed by `add_item`: if the key is present, the
stored quantity is incremented and the stored price overwritten in place;
otherwise a fresh entry is appended at the end (Python dict insertion). -/
def addItemEntry (items : List (String × CartItem)) (key trimmed : String)
    (price : ℚ) (quantity : ℤ) : List (String × CartItem) :=
  match items with
  | [] => [(key, ⟨trimmed, price, quantity⟩)]
  | (k, v) :: rest =>
      if k = key then (k, ⟨v.name, price, v.quantity + quantity⟩) :: rest
      else (k, v) :: addItemEntry rest key trimmed price quantity

/-- `CashierCart.add_item(name, price, quantity)`. -/
def CashierCart.add_item (c : CashierCart) (name : String) (price : ℚ)
    (quantity : ℤ) : CashierCart :=
  { c with items := addItemEntry c.items (normKey name) (pyStrip name) price quantity }

/-- The `dict.pop(key, None)` removal used by `remove_item` and
`update_quantity`. -/
def removeEntry (items : List (String × CartItem)) (key : String) :
    List (String × CartItem) :=
  match items with
  | [] => []
  | (k, v) :: rest => if k = key then rest else (k, v) :: removeEntry rest key

/-- `CashierCart.remove_item(name)`: returns the new cart together with the
boolean `self.items.pop(key, None) is not None`. -/
def CashierCart.remove_item (c : CashierCart) (name : String) :
    CashierCart × Bool :=
  ({ c with items := removeEntry c.items (normKey name) },
   containsKey c.items (normKey name))

/-- Overwriting the stored quantity of an existing entry in place. -/
def setQuantityEntry (items : List (String × CartItem)) (key : String)
    (quantity : ℤ) : List (String × CartItem) :=
  match items with
  | [] => []
  | (k, v) :: rest =>
      if k = key then (k, ⟨v.name, v.price, quantity⟩) :: rest
      else (k, v) :: setQuantityEntry rest key quantity

/-- `CashierCart.update_quantity(name, quantity)`: absent key returns
`false` with no mutation; `quantity <= 0` pops the entry; otherwise the
stored quantity is overwritten; both matched cases return `true`. -/
def CashierCart.update_quantity (c : CashierCart) (name : String)
    (quantity : ℤ) : CashierCart × Bool :=
  let key := normKey name
  if containsKey c.items key then
    if quantity ≤ 0 then
      ({ c with items := removeEntry c.items key }, true)
    else
      ({ c with items := setQuantityEntry c.items key quantity }, true)
  else
    (c, false)

/-- `CashierCart.clear()`: empties the items and zeroes both percentages. -/
def CashierCart.clear (_c : CashierCart) : CashierCart :=
  { items := [], discount_percent := 0, tax_percent := 0 }

/-- `CashierCart.subtotal()`: sum of the line totals. -/
def CashierCart.subtotal (c : CashierCart) : ℚ :=
  (c.items.map (fun e => e.2.total)).sum

/-- `CashierCart.discount_amount()`. -/
def CashierCart.discount_amount (c : CashierCart) : ℚ :=
  c.subtotal * (c.discount_percent / 100)

/-- `CashierCart.tax_amount()`. -/
def CashierCart.tax_amount (c : CashierCart) : ℚ :=
  (c.subtotal - c.discount_amount) * (c.tax_percent / 100)

/-- `CashierCart.total_due()`. -/
def CashierCart.total_due (c : CashierCart) : ℚ :=
  c.subtotal - c.discount_amount + c.tax_amount

/-- The empty cart `CashierCart()` created at session start. -/
def emptyCart : CashierCart :=
  { items := [], discount_percent := 0, tax_percent := 0 }

/-- Rounding to the nearest integer, ties to even, the rounding used by
fixed-point formatting of the ideal decimal values. -/
def roundHalfEven (q : ℚ) : ℤ :=
  let f := ⌊q⌋
  let r := q - f
  if r < 1/2 then f
  else if 1/2 < r then f + 1
  else if f % 2 = 0 then f else f + 1

/-- Left-padding with zeros used to print the fractional digits. -/
def padLeftZeros (s : String) (len : ℕ) : String :=
  String.mk (List.replicate (len - s.data.length) '0') ++ s

/-- Python fixed-point formatting `f"{q:.df}"` of the ideal decimal value:
`d` digits after the decimal point, no thousands separators. -/
def fmtFixed (d : ℕ) (q : ℚ) : String :=
  let n := roundHalfEven (q * (10 : ℤ) ^ d)
  let sign := if n < 0 then "-" else ""
  let m := n.natAbs
  sign ++ toString (m / 10 ^ d) ++ "." ++ padLeftZeros (toString (m % 10 ^ d)) d

/-- The row written for one item by `save_receipt`. -/
def itemRow (i : CartItem) : List String :=
  [i.name, toString i.quantity, fmtFixed 2 i.price, fmtFixed 2 i.total]

/-- The six summary rows written by `save_receipt` after the blank row. -/
def summaryRows (c : CashierCart) : List (List String) :=
  [["Subtotal", fmtFixed 2 c.subtotal],
   ["Discount %", fmtFixed 1 c.discount_percent],
   ["Discount Amount", fmtFixed 2 c.discount_amount],
   ["Tax %", fmtFixed 1 c.tax_percent],
   ["Tax Amount", fmtFixed 2 c.tax_amount],
   ["Total Due", fmtFixed 2 c.total_due]]

/-- `save_receipt(cart, output_dir)` modelled as the list of CSV rows it
writes, in order: header, one row per item, a blank row, six summary rows. -/
def save_receipt (c : CashierCart) : List (List String) :=
  ["Item", "Qty", "Price", "Total"] :: (c.items.map (fun e => itemRow e.2)
    ++ [] :: summaryRows c)

/-- Outcome of the checkout menu choice: a warning with no file written, or
a receipt file with the given rows. -/
inductive CheckoutResult where
  | warning
  | saved (rows : List (List String))
deriving DecidableEq

/-- The body of menu choice `"7"` in `run_cashier`: an empty cart prints a
warning and writes nothing; otherwise the receipt is saved and the cart is
cleared. -/
def checkoutStep (c : CashierCart) : CashierCart × CheckoutResult :=
  if c.items = [] then (c, CheckoutResult.warning)
  else (c.clear, CheckoutResult.saved (save_receipt c))

/-- One cart-mutating command of the session loop. -/
inductive CartOp where
  | add (name : String) (price : ℚ) (quantity : ℤ)
  | remove (name : String)
  | update (name : String) (quantity : ℤ)
  | clearOp

/-- Dispatch of one command to the corresponding cart method. -/
def applyOp (c : CashierCart) : CartOp → CashierCart
  | CartOp.add n p q => c.add_item n p q
  | CartOp.remove n => (c.remove_item n).1
  | CartOp.update n q => (c.update_quantity n q).1
  | CartOp.clearOp => c.clear

/-- The caller-side preconditions of `run_cashier` before invoking
`add_item`: non-empty trimmed name, non-negative price, positive quantity.
The other operations have no caller precondition. -/
def validOp : CartOp → Prop
  | CartOp.add n p q => pyStrip n ≠ "" ∧ 0 ≤ p ∧ 0 < q
  | _ => True

/-- Running a sequence of commands from a starting cart. -/
def runOps (c : CashierCart) (ops : List CartOp) : CashierCart :=
  ops.foldl applyOp c

/-- The stored-item invariant: every line item has positive quantity and
non-negative unit price. -/
def itemsInv (items : List (String × CartItem)) : Prop :=
  ∀ e ∈ items, 0 < e.2.quantity ∧ 0 ≤ e.2.price

/-- Folding a list of `add_item` calls (name, price, quantity) over a cart. -/
def addCalls (c : CashierCart) (calls : List (String × ℚ × ℤ)) : CashierCart :=
  calls.foldl (fun acc x => acc.add_item x.1 x.2.1 x.2.2) c

/-- Total quantity added by a list of `add_item` calls. -/
def sumQty (calls : List (String × ℚ × ℤ)) : ℤ :=
  (calls.map (fun x => x.2.2)).sum

/-- Price from the last call of the list, or `p0` if the list is empty. -/
def lastPrice (p0 : ℚ) (calls : List (String × ℚ × ℤ)) : ℚ :=
  calls.foldl (fun _ x => x.2.1) p0

/-- Sample cart of Scenario B: subtotal 100, discount 10%, tax 5%. -/
def sampleCartB : CashierCart :=
  { items := [("gadget", ⟨"Gadget", 100, 1⟩)],
    discount_percent := 10, tax_percent := 5 }

/-- Sample empty cart with nonzero percentages. -/
def sampleEmptyCart : CashierCart :=
  { items := [], discount_percent := 10, tax_percent := 5 }

/-- Sample two-item cart used for update/remove witnesses. -/
def samplePairCart : CashierCart :=
  { items := [("coffee", ⟨"Coffee", 2, 5⟩), ("tea", ⟨"Tea", 3, 1⟩)],
    discount_percent := 0, tax_percent := 0 }

/-- Sample one-item cart used for the receipt witness. -/
def sampleOneCart : CashierCart :=
  { items := [("coffee", ⟨"Coffee", 4, 3⟩)],
    discount_percent := 10, tax_percent := 5 }

/-- Sample command sequence satisfying the caller preconditions. -/
def sampleOps : List CartOp :=
  [CartOp.add "Coffee" 2 2, CartOp.add " coffee " 3 1,
   CartOp.update "coffee" 0, CartOp.add "Tea" 0 1, CartOp.remove "Tea",
   CartOp.clearOp, CartOp.add "Cake" 5 4, CartOp.update "cake" 2]

/-! ### Lookup and mutation lemmas for the items dictionary -/

theorem containsKey_false_iff (items : List (String × CartItem)) (key : String) :
    containsKey items key = false ↔ lookupItem items key = none := by
  cases h : lookupItem items key <;> simp [containsKey, h]

theorem containsKey_true_iff (items : List (String × CartItem)) (key : String) :
    containsKey items key = true ↔ ∃ v, lookupItem items key = some v := by
  cases h : lookupItem items key <;> simp [containsKey, h]

theorem lookupItem_eq_none_of_not_mem (items : List (String × CartItem))
    (key : String) (h : key ∉ items.map Prod.fst) :
    lookupItem items key = none := by
  induction items with
  | nil => rfl
  | cons kv rest ih =>
      obtain ⟨k, v⟩ := kv
      simp only [List.map_cons, List.mem_cons] at h
      push_neg at h
      have hk : k ≠ key := fun e => h.1 e.symm
      simp [lookupItem, hk, ih h.2]

theorem lookupItem_addItemEntry_insert (items : List (String × CartItem))
    (key t : String) (p : ℚ) (q : ℤ) (h : lookupItem items key = none) :
    lookupItem (addItemEntry items key t p q) key = some ⟨t, p, q⟩ := by
  induction items with
  | nil => simp [addItemEntry, lookupItem]
  | cons kv rest ih =>
      obtain ⟨k, w⟩ := kv
      by_cases hk : k = key
      · simp [lookupItem, hk] at h
      · simp only [lookupItem, hk, if_false] at h
        simp [addItemEntry, lookupItem, hk, ih h]

theorem lookupItem_addItemEntry_merge (items : List (String × CartItem))
    (key t : String) (p : ℚ) (q : ℤ) (v : CartItem)
    (h : lookupItem items key = some v) :
    lookupItem (addItemEntry items key t p q) key
      = some ⟨v.name, p, v.quantity + q⟩ := by
  induction items with
  | nil => simp [lookupItem] at h
  | cons kv rest ih =>
      obtain ⟨k, w⟩ := kv
      by_cases hk : k = key
      · simp only [lookupItem, hk, if_true, Option.some_inj] at h
        subst h
        simp [addItemEntry, lookupItem, hk]
      · simp only [lookupItem, hk, if_false] at h
        simp [addItemEntry, lookupItem, hk, ih h]

theorem lookupItem_addItemEntry_other (items : List (String × CartItem))
    (key t : String) (p : ℚ) (q : ℤ) (k2 : String) (hne : k2 ≠ key) :
    lookupItem (addItemEntry items key t p q) k2 = lookupItem items k2 := by
  induction items with
  | nil => simp [addItemEntry, lookupItem, Ne.symm hne]
  | cons kv rest ih =>
      obtain ⟨k, w⟩ := kv
      by_cases hk : k = key
      · subst hk
        simp [addItemEntry, lookupItem, Ne.symm hne]
      · simp [addItemEntry, lookupItem, hk, ih]

theorem length_addItemEntry_merge (items : List (String × CartItem))
    (key t : String) (p : ℚ) (q : ℤ) (v : CartItem)
    (h : lookupItem items key = some v) :
    (addItemEntry items key t p q).length = items.length := by
  induction items with
  | nil => simp [lookupItem] at h
  | cons kv rest ih =>
      obtain ⟨k, w⟩ := kv
      by_cases hk : k = key
      · simp [addItemEntry, hk]
      · simp only [lookupItem, hk, if_false] at h
        simp [addItemEntry, hk, ih h]

theorem removeEntry_not_found (items : List (String × CartItem)) (key : String)
    (h : lookupItem items key = none) : removeEntry items key = items := by
  induction items with
  | nil => rfl
  | cons kv rest ih =>
      obtain ⟨k, v⟩ := kv
      by_cases hk : k = key
      · simp [lookupItem, hk] at h
      · simp only [lookupItem, hk, if_false] at h
        simp [removeEntry, hk, ih h]

theorem lookupItem_removeEntry_self (items : List (String × CartItem))
    (key : String) (hnd : (items.map Prod.fst).Nodup) :
    lookupItem (removeEntry items key) key = none := by
  induction items with
  | nil => rfl
  | cons kv rest ih =>
      obtain ⟨k, v⟩ := kv
      simp only [List.map_cons, List.nodup_cons] at hnd
      by_cases hk : k = key
      · subst hk
        simpa [removeEntry] using lookupItem_eq_none_of_not_mem rest k hnd.1
      · simp [removeEntry, lookupItem, hk, ih hnd.2]

theorem lookupItem_removeEntry_other (items : List (String × CartItem))
    (key k2 : String) (hne : k2 ≠ key) :
    lookupItem (removeEntry items key) k2 = lookupItem items k2 := by
  induction items with
  | nil => rfl
  | cons kv rest ih =>
      obtain ⟨k, v⟩ := kv
      by_cases hk : k = key
      · subst hk
        simp [removeEntry, lookupItem, Ne.symm hne]
      · simp [removeEntry, lookupItem, hk, ih]

theorem length_removeEntry_found (items : List (String × CartItem))
    (key : String) (v : CartItem) (h : lookupItem items key = some v) :
    (removeEntry items key).length + 1 = items.length := by
  induction items with
  | nil => simp [lookupItem] at h
  | cons kv rest ih =>
      obtain ⟨k, w⟩ := kv
      by_cases hk : k = key
      · simp [removeEntry, hk]
      · simp only [lookupItem, hk, if_false] at h
        simp [removeEntry, hk, ih h]

theorem mem_removeEntry (items : List (String × CartItem)) (key : String)
    (e : String × CartItem) (he : e ∈ removeEntry items key) : e ∈ items := by
  induction items with
  | nil => simp [removeEntry] at he
  | cons kv rest ih =>
      obtain ⟨k, v⟩ := kv
      by_cases hk : k = key
      · simp only [removeEntry, hk, if_true] at he
        exact List.mem_cons_of_mem _ he
      · simp only [removeEntry, hk, if_false, List.mem_cons] at he
        rcases he with he | he
        · exact he ▸ List.mem_cons_self _ _
        · exact List.mem_cons_of_mem _ (ih he)

theorem lookupItem_setQuantityEntry_self (items : List (String × CartItem))
    (key : String) (q : ℤ) (v : CartItem) (h : lookupItem items key = some v) :
    lookupItem (setQuantityEntry items key q) key
      = some ⟨v.name, v.price, q⟩ := by
  induction items with
  | nil => simp [lookupItem] at h
  | cons kv rest ih =>
      obtain ⟨k, w⟩ := kv
      by_cases hk : k = key
      · simp only [lookupItem, hk, if_true, Option.some_inj] at h
        subst h
        simp [setQuantityEntry, lookupItem, hk]
      · simp only [lookupItem, hk, if_false] at h
        simp [setQuantityEntry, lookupItem, hk, ih h]

theorem lookupItem_setQuantityEntry_other (items : List (String × CartItem))
    (key : String) (q : ℤ) (k2 : String) (hne : k2 ≠ key) :
    lookupItem (setQuantityEntry items key q) k2 = lookupItem items k2 := by
  induction items with
  | nil => rfl
  | cons kv rest ih =>
      obtain ⟨k, v⟩ := kv
      by_cases hk : k = key
      · subst hk
        simp [setQuantityEntry, lookupItem, Ne.symm hne]
      · simp [setQuantityEntry, lookupItem, hk, ih]

/-! ### Invariant preservation lemmas -/

theorem itemsInv_addItemEntry (items : List (String × CartItem))
    (key t : String) (p : ℚ) (q : ℤ) (hinv : itemsInv items)
    (hp : 0 ≤ p) (hq : 0 < q) : itemsInv (addItemEntry items key t p q) := by
  induction items with
  | nil =>
      intro e he
      simp only [addItemEntry, List.mem_singleton] at he
      subst he
      exact ⟨hq, hp⟩
  | cons kv rest ih =>
      obtain ⟨k, v⟩ := kv
      have hv := hinv (k, v) (List.mem_cons_self _ _)
      have hrest : itemsInv rest := fun x hx => hinv x (List.mem_cons_of_mem _ hx)
      intro e he
      by_cases hk : k = key
      · simp only [addItemEntry, hk, if_true, List.mem_cons] at he
        rcases he with he | he
        · subst he
          exact ⟨add_pos hv.1 hq, hp⟩
        · exact hrest e he
      · simp only [addItemEntry, hk, if_false, List.mem_cons] at he
        rcases he with he | he
        · subst he
          exact hv
        · exact ih hrest e he

theorem itemsInv_setQuantityEntry (items : List (String × CartItem))
    (key : String) (q : ℤ) (hinv : itemsInv items) (hq : 0 < q) :
    itemsInv (setQuantityEntry items key q) := by
  induction items with
  | nil =>
      intro e he
      simp [setQuantityEntry] at he
  | cons kv rest ih =>
      obtain ⟨k, v⟩ := kv
      have hv := hinv (k, v) (List.mem_cons_self _ _)
      have hrest : itemsInv rest := fun x hx => hinv x (List.mem_cons_of_mem _ hx)
      intro e he
      by_cases hk : k = key
      · simp only [setQuantityEntry, hk, if_true, List.mem_cons] at he
        rcases he with he | he
        · subst he
          exact ⟨hq, hv.2⟩
        · exact hrest e he
      · simp only [setQuantityEntry, hk, if_false, List.mem_cons] at he
        rcases he with he | he
        · subst he
          exact hv
        · exact ih hrest e he

theorem itemsInv_applyOp (c : CashierCart) (op : CartOp)
    (hinv : itemsInv c.items) (hv : validOp op) :
    itemsInv (applyOp c op).items := by
  cases op with
  | add n p q =>
      obtain ⟨-, hp, hq⟩ := hv
      exact itemsInv_addItemEntry c.items (normKey n) (pyStrip n) p q hinv hp hq
  | remove n =>
      intro e he
      exact hinv e (mem_removeEntry c.items (normKey n) e he)
  | update n q =>
      by_cases hc : containsKey c.items (normKey n) = true
      · by_cases hq : q ≤ 0
        · intro e he
          simp only [applyOp, CashierCart.update_quantity, hc, if_true, hq] at he
          exact hinv e (mem_removeEntry c.items (normKey n) e he)
        · have hq2 : 0 < q := lt_of_not_le hq
          intro e he
          simp only [applyOp, CashierCart.update_quantity, hc, if_true, hq,
            if_false] at he
          exact itemsInv_setQuantityEntry c.items (normKey n) q hinv hq2 e he
      · intro e he
        simp only [applyOp, CashierCart.update_quantity, hc] at he
        exact hinv e he
  | clearOp =>
      intro e he
      simp [applyOp, CashierCart.clear] at he

theorem itemsInv_runOps (ops : List CartOp) :
    ∀ c : CashierCart, itemsInv c.items → (∀ op ∈ ops, validOp op) →
      itemsInv (runOps c ops).items := by
  induction ops with
  | nil =>
      intro c hc _
      simpa [runOps] using hc
  | cons op rest ih =>
      intro c hc hv
      have h1 : itemsInv (applyOp c op).items :=
        itemsInv_applyOp c op hc (hv op (List.mem_cons_self _ _))
      have := ih (applyOp c op) h1 (fun x hx => hv x (List.mem_cons_of_mem _ hx))
      simpa [runOps] using this

/-! ### Accumulation over a sequence of same-key add calls -/

theorem addCalls_lookup (key : String) (calls : List (String × ℚ × ℤ)) :
    ∀ (c : CashierCart) (nm : String) (p0 : ℚ) (Q : ℤ),
      (∀ x ∈ calls, normKey x.1 = key) →
      lookupItem c.items key = some ⟨nm, p0, Q⟩ →
      lookupItem (addCalls c calls).items key
        = some ⟨nm, lastPrice p0 calls, Q + sumQty calls⟩ := by
  induction calls with
  | nil =>
      intro c nm p0 Q _ h
      simpa [addCalls, lastPrice, sumQty] using h
  | cons x rest ih =>
      intro c nm p0 Q hall h
      have hx : normKey x.1 = key := hall x (List.mem_cons_self _ _)
      have step : lookupItem (c.add_item x.1 x.2.1 x.2.2).items key
          = some ⟨nm, x.2.1, Q + x.2.2⟩ := by
        have := lookupItem_addItemEntry_merge c.items key (pyStrip x.1)
          x.2.1 x.2.2 ⟨nm, p0, Q⟩ h
        simpa [CashierCart.add_item, hx] using this
      have hrec := ih (c.add_item x.1 x.2.1 x.2.2) nm x.2.1 (Q + x.2.2)
        (fun y hy => hall y (List.mem_cons_of_mem _ hy)) step
      simpa [addCalls, lastPrice, sumQty, add_assoc] using hrec

/-! ### Claim theorems -/

/-- C2: for every cart state, `subtotal` is the sum of unit price times
quantity over the stored items, `discount_amount` is subtotal times
`discount_percent / 100`, `tax_amount` is (subtotal minus discount) times
`tax_percent / 100`, and `total_due` is subtotal minus discount plus tax;
in particular a cart with subtotal 100, discount 10% and tax 5% yields
discount amount 10, tax amount 4.50 and total due 94.50. -/
theorem cart_totals_formulas (c : CashierCart) :
    c.subtotal = (c.items.map (fun e => e.2.price * (e.2.quantity : ℚ))).sum ∧
    c.discount_amount = c.subtotal * (c.discount_percent / 100) ∧
    c.tax_amount = (c.subtotal - c.discount_amount) * (c.tax_percent / 100) ∧
    c.total_due = c.subtotal - c.discount_amount + c.tax_amount ∧
    (c.subtotal = 100 → c.discount_percent = 10 → c.tax_percent = 5 →
      c.discount_amount = 10 ∧ c.tax_amount = 9/2 ∧ c.total_due = 189/2) := by
  refine ⟨rfl, rfl, rfl, rfl, ?_⟩
  intro h100 hd ht
  have hda : c.discount_amount = 10 := by
    rw [CashierCart.discount_amount, h100, hd]
    norm_num
  have hta : c.tax_amount = 9/2 := by
    rw [CashierCart.tax_amount, h100, hda, ht]
    norm_num
  refine ⟨hda, hta, ?_⟩
  rw [CashierCart.total_due, h100, hda, hta]
  norm_num

/-- Witness for C2 at the Scenario B cart (subtotal 100, 10% off, 5% tax). -/
theorem cart_totals_formulas_witness :
    sampleCartB.subtotal = 100 ∧ sampleCartB.discount_percent = 10 ∧
    sampleCartB.tax_percent = 5 ∧ sampleCartB.discount_amount = 10 ∧
    sampleCartB.tax_amount = 9/2 ∧ sampleCartB.total_due = 189/2 := by
  have hs : sampleCartB.subtotal = 100 := by
    show (100 : ℚ) * ((1 : ℤ) : ℚ) + 0 = 100
    norm_num
  have h := (cart_totals_formulas sampleCartB).2.2.2.2 hs rfl rfl
  exact ⟨hs, rfl, rfl, h.1, h.2.1, h.2.2⟩

/-- C5: invoking checkout on a cart whose items mapping is empty writes no
file, emits the warning, and leaves the whole cart state unchanged. -/
theorem checkout_empty_cart_rejected (c : CashierCart) (h : c.items = []) :
    checkoutStep c = (c, CheckoutResult.warning) := by
  simp [checkoutStep, h]

/-- Witness for C5 at an empty cart with nonzero discount and tax. -/
theorem checkout_empty_cart_rejected_witness :
    sampleEmptyCart.items = [] ∧
    checkoutStep sampleEmptyCart = (sampleEmptyCart, CheckoutResult.warning) :=
  ⟨rfl, checkout_empty_cart_rejected sampleEmptyCart rfl⟩

/-- C8: `clear` always produces the state with no items and both
percentages zero, and clearing twice gives exactly the state of clearing
once. -/
theorem clear_resets_and_idempotent (c : CashierCart) :
    c.clear = { items := [], discount_percent := 0, tax_percent := 0 } ∧
    c.clear.clear = c.clear :=
  ⟨rfl, rfl⟩

/-- C9: on a cart with no items, whatever the percentages, all four derived
amounts are zero. -/
theorem empty_cart_totals_zero (c : CashierCart) (h : c.items = []) :
    c.subtotal = 0 ∧ c.discount_amount = 0 ∧ c.tax_amount = 0 ∧
    c.total_due = 0 := by
  have hs : c.subtotal = 0 := by simp [CashierCart.subtotal, h]
  refine ⟨hs, ?_, ?_, ?_⟩ <;>
    simp [CashierCart.discount_amount, CashierCart.tax_amount,
      CashierCart.total_due, hs]

/-- Witness for C9 at the empty cart with discount 10% and tax 5%. -/
theorem empty_cart_totals_zero_witness :
    sampleEmptyCart.items = [] ∧
    (sampleEmptyCart.subtotal = 0 ∧ sampleEmptyCart.discount_amount = 0 ∧
     sampleEmptyCart.tax_amount = 0 ∧ sampleEmptyCart.total_due = 0) :=
  ⟨rfl, empty_cart_totals_zero sampleEmptyCart rfl⟩

/-- C1: starting from a cart in which the normalized key is absent, the
first `add_item` inserts an entry whose display name is the trimmed input
name, and after any further sequence of `add_item` calls whose names all
normalize to that key the stored quantity equals the sum of every added
quantity while the stored price is the price of the last call. -/
theorem addItem_same_key_accumulates (c : CashierCart) (key name1 : String)
    (p1 : ℚ) (q1 : ℤ) (rest : List (String × ℚ × ℤ))
    (habs : lookupItem c.items key = none)
    (h1 : normKey name1 = key)
    (hrest : ∀ x ∈ rest, normKey x.1 = key) :
    lookupItem (c.add_item name1 p1 q1).items key
      = some ⟨pyStrip name1, p1, q1⟩ ∧
    lookupItem (addCalls c ((name1, p1, q1) :: rest)).items key
      = some ⟨pyStrip name1, lastPrice p1 rest,
          sumQty ((name1, p1, q1) :: rest)⟩ := by
  have hins : lookupItem (c.add_item name1 p1 q1).items key
      = some ⟨pyStrip name1, p1, q1⟩ := by
    have := lookupItem_addItemEntry_insert c.items key (pyStrip name1) p1 q1 habs
    simpa [CashierCart.add_item, h1] using this
  refine ⟨hins, ?_⟩
  have hrec := addCalls_lookup key rest (c.add_item name1 p1 q1)
    (pyStrip name1) p1 q1 hrest hins
  simpa [addCalls, sumQty] using hrec

/-- Witness for C1: Scenario A, add Coffee 3.50 x2 then a differently cased
and padded coffee 4.00 x1 onto the empty cart. -/
theorem addItem_same_key_accumulates_witness :
    lookupItem emptyCart.items "coffee" = none ∧
    normKey "Coffee" = "coffee" ∧
    (∀ x ∈ [(" coffee ", (4 : ℚ), (1 : ℤ))], normKey x.1 = "coffee") ∧
    (lookupItem (emptyCart.add_item "Coffee" (7/2) 2).items "coffee"
        = some ⟨pyStrip "Coffee", 7/2, 2⟩ ∧
     lookupItem (addCalls emptyCart
         (("Coffee", 7/2, 2) :: [(" coffee ", 4, 1)])).items "coffee"
        = some ⟨pyStrip "Coffee", lastPrice (7/2) [(" coffee ", 4, 1)],
            sumQty (("Coffee", 7/2, 2) :: [(" coffee ", 4, 1)])⟩) :=
  ⟨rfl, rfl, by decide,
   addItem_same_key_accumulates emptyCart "coffee" "Coffee" (7/2) 2
     [(" coffee ", 4, 1)] rfl rfl (by decide)⟩

/-- C10: adding under an already-present normalized key keeps the stored
display name from the first insertion (whatever the casing or whitespace
of the later call), changes only that entry's price and quantity, leaves
every other entry and both percentages unchanged, and inserts no entry. -/
theorem addItem_existing_keeps_display_name (c : CashierCart) (name : String)
    (p : ℚ) (q : ℤ) (v : CartItem)
    (h : lookupItem c.items (normKey name) = some v) :
    lookupItem (c.add_item name p q).items (normKey name)
      = some ⟨v.name, p, v.quantity + q⟩ ∧
    (∀ k, k ≠ normKey name →
      lookupItem (c.add_item name p q).items k = lookupItem c.items k) ∧
    (c.add_item name p q).items.length = c.items.length ∧
    (c.add_item name p q).discount_percent = c.discount_percent ∧
    (c.add_item name p q).tax_percent = c.tax_percent := by
  refine ⟨?_, ?_, ?_, rfl, rfl⟩
  · exact lookupItem_addItemEntry_merge c.items (normKey name) (pyStrip name)
      p q v h
  · intro k hk
    exact lookupItem_addItemEntry_other c.items (normKey name) (pyStrip name)
      p q k hk
  · exact length_addItemEntry_merge c.items (normKey name) (pyStrip name)
      p q v h

/-- Witness for C10: re-adding with different casing and padding keeps the
display name Coffee stored at first insertion. -/
theorem addItem_existing_keeps_display_name_witness :
    lookupItem sampleOneCart.items (normKey " COFFEE ") = some ⟨"Coffee", 4, 3⟩ ∧
    (lookupItem (sampleOneCart.add_item " COFFEE " 5 2).items
        (normKey " COFFEE ") = some ⟨"Coffee", 5, 3 + 2⟩ ∧
     (∀ k, k ≠ normKey " COFFEE " →
       lookupItem (sampleOneCart.add_item " COFFEE " 5 2).items k
         = lookupItem sampleOneCart.items k) ∧
     (sampleOneCart.add_item " COFFEE " 5 2).items.length
        = sampleOneCart.items.length ∧
     (sampleOneCart.add_item " COFFEE " 5 2).discount_percent
        = sampleOneCart.discount_percent ∧
     (sampleOneCart.add_item " COFFEE " 5 2).tax_percent
        = sampleOneCart.tax_percent) :=
  ⟨rfl, addItem_existing_keeps_display_name sampleOneCart " COFFEE " 5 2
    ⟨"Coffee", 4, 3⟩ rfl⟩

/-- C3: `update_quantity` returns false and leaves the cart unchanged when
the normalized key is absent; on a present key with quantity at most zero
it removes exactly that entry and returns true; on a present key with
positive quantity it overwrites only the stored quantity and returns true. -/
theorem update_quantity_spec (c : CashierCart) (name : String) (q : ℤ)
    (hnd : (c.items.map Prod.fst).Nodup) :
    (lookupItem c.items (normKey name) = none →
      c.update_quantity name q = (c, false)) ∧
    (∀ v, lookupItem c.items (normKey name) = some v → q ≤ 0 →
      (c.update_quantity name q).2 = true ∧
      lookupItem (c.update_quantity name q).1.items (normKey name) = none ∧
      (∀ k, k ≠ normKey name →
        lookupItem (c.update_quantity name q).1.items k
          = lookupItem c.items k) ∧
      (c.update_quantity name q).1.items.length + 1 = c.items.length ∧
      (c.update_quantity name q).1.discount_percent = c.discount_percent ∧
      (c.update_quantity name q).1.tax_percent = c.tax_percent) ∧
    (∀ v, lookupItem c.items (normKey name) = some v → 0 < q →
      (c.update_quantity name q).2 = true ∧
      lookupItem (c.update_quantity name q).1.items (normKey name)
        = some ⟨v.name, v.price, q⟩ ∧
      (∀ k, k ≠ normKey name →
        lookupItem (c.update_quantity name q).1.items k
          = lookupItem c.items k) ∧
      (c.update_quantity name q).1.discount_percent = c.discount_percent ∧
      (c.update_quantity name q).1.tax_percent = c.tax_percent) := by
  refine ⟨?_, ?_, ?_⟩
  · intro habs
    have hc : containsKey c.items (normKey name) = false :=
      (containsKey_false_iff _ _).2 habs
    simp [CashierCart.update_quantity, hc]
  · intro v hv hq
    have hc : containsKey c.items (normKey name) = true :=
      (containsKey_true_iff _ _).2 ⟨v, hv⟩
    have hres : c.update_quantity name q
        = ({ c with items := removeEntry c.items (normKey name) }, true) := by
      simp [CashierCart.update_quantity, hc, hq]
    refine ⟨by rw [hres], ?_, ?_, ?_, by rw [hres], by rw [hres]⟩
    · rw [hres]
      exact lookupItem_removeEntry_self c.items (normKey name) hnd
    · intro k hk
      rw [hres]
      exact lookupItem_removeEntry_other c.items (normKey name) k hk
    · rw [hres]
      exact length_removeEntry_found c.items (normKey name) v hv
  · intro v hv hq
    have hc : containsKey c.items (normKey name) = true :=
      (containsKey_true_iff _ _).2 ⟨v, hv⟩
    have hq2 : ¬q ≤ 0 := not_le.mpr hq
    have hres : c.update_quantity name q
        = ({ c with items := setQuantityEntry c.items (normKey name) q },
           true) := by
      simp [CashierCart.update_quantity, hc, hq2]
    refine ⟨by rw [hres], ?_, ?_, by rw [hres], by rw [hres]⟩
    · rw [hres]
      exact lookupItem_setQuantityEntry_self c.items (normKey name) q v hv
    · intro k hk
      rw [hres]
      exact lookupItem_setQuantityEntry_other c.items (normKey name) q k hk

/-- Witness for C3: update with quantity 0 on an existing item removes it
and returns true, leaving the other item and the percentages untouched. -/
theorem update_quantity_spec_witness :
    (samplePairCart.items.map Prod.fst).Nodup ∧
    lookupItem samplePairCart.items (normKey "Coffee") = some ⟨"Coffee", 2, 5⟩ ∧
    (0 : ℤ) ≤ 0 ∧
    ((samplePairCart.update_quantity "Coffee" 0).2 = true ∧
     lookupItem (samplePairCart.update_quantity "Coffee" 0).1.items
       (normKey "Coffee") = none ∧
     (∀ k, k ≠ normKey "Coffee" →
       lookupItem (samplePairCart.update_quantity "Coffee" 0).1.items k
         = lookupItem samplePairCart.items k) ∧
     (samplePairCart.update_quantity "Coffee" 0).1.items.length + 1
        = samplePairCart.items.length ∧
     (samplePairCart.update_quantity "Coffee" 0).1.discount_percent
        = samplePairCart.discount_percent ∧
     (samplePairCart.update_quantity "Coffee" 0).1.tax_percent
        = samplePairCart.tax_percent) :=
  ⟨by decide, rfl, by decide,
   (update_quantity_spec samplePairCart "Coffee" 0 (by decide)).2.1
     ⟨"Coffee", 2, 5⟩ rfl (by decide)⟩

/-- C6: `remove_item` on an absent normalized key returns false and leaves
the cart unchanged (absence is a normal outcome, not a failure); on a
present key it removes exactly that entry and returns true. -/
theorem remove_item_spec (c : CashierCart) (name : String)
    (hnd : (c.items.map Prod.fst).Nodup) :
    (lookupItem c.items (normKey name) = none →
      c.remove_item name = (c, false)) ∧
    (∀ v, lookupItem c.items (normKey name) = some v →
      (c.remove_item name).2 = true ∧
      lookupItem (c.remove_item name).1.items (normKey name) = none ∧
      (∀ k, k ≠ normKey name →
        lookupItem (c.remove_item name).1.items k = lookupItem c.items k) ∧
      (c.remove_item name).1.items.length + 1 = c.items.length ∧
      (c.remove_item name).1.discount_percent = c.discount_percent ∧
      (c.remove_item name).1.tax_percent = c.tax_percent) := by
  refine ⟨?_, ?_⟩
  · intro habs
    have hb : containsKey c.items (normKey name) = false :=
      (containsKey_false_iff _ _).2 habs
    have hi : removeEntry c.items (normKey name) = c.items :=
      removeEntry_not_found _ _ habs
    show ({ c with items := removeEntry c.items (normKey name) },
      containsKey c.items (normKey name)) = (c, false)
    rw [hi, hb]
  · intro v hv
    refine ⟨?_, ?_, ?_, ?_, rfl, rfl⟩
    · show containsKey c.items (normKey name) = true
      exact (containsKey_true_iff _ _).2 ⟨v, hv⟩
    · exact lookupItem_removeEntry_self c.items (normKey name) hnd
    · intro k hk
      exact lookupItem_removeEntry_other c.items (normKey name) k hk
    · exact length_removeEntry_found c.items (normKey name) v hv

/-- Witness for C6: removing an existing item through a differently cased
and padded name succeeds and removes exactly that entry. -/
theorem remove_item_spec_witness :
    (samplePairCart.items.map Prod.fst).Nodup ∧
    lookupItem samplePairCart.items (normKey " TEA ") = some ⟨"Tea", 3, 1⟩ ∧
    ((samplePairCart.remove_item " TEA ").2 = true ∧
     lookupItem (samplePairCart.remove_item " TEA ").1.items
       (normKey " TEA ") = none ∧
     (∀ k, k ≠ normKey " TEA " →
       lookupItem (samplePairCart.remove_item " TEA ").1.items k
         = lookupItem samplePairCart.items k) ∧
     (samplePairCart.remove_item " TEA ").1.items.length + 1
        = samplePairCart.items.length ∧
     (samplePairCart.remove_item " TEA ").1.discount_percent
        = samplePairCart.discount_percent ∧
     (samplePairCart.remove_item " TEA ").1.tax_percent
        = samplePairCart.tax_percent) :=
  ⟨by decide, rfl,
   (remove_item_spec samplePairCart " TEA " (by decide)).2 ⟨"Tea", 3, 1⟩ rfl⟩

/-- C4: every cart state reachable from the session-start empty cart by
add, update, remove and clear commands whose add calls satisfy the caller
preconditions (trimmed name non-empty, price at least 0, quantity above 0)
stores only items with positive quantity and non-negative unit price. -/
theorem reachable_items_invariant (ops : List CartOp)
    (hv : ∀ op ∈ ops, validOp op) :
    itemsInv (runOps emptyCart ops).items :=
  itemsInv_runOps ops emptyCart (by intro e he; simp [emptyCart] at he) hv

/-- Witness for C4 at a concrete command sequence exercising merge, delete
by zero update, removal, clear and a positive quantity update. -/
theorem reachable_items_invariant_witness :
    (∀ op ∈ sampleOps, validOp op) ∧
    itemsInv (runOps emptyCart sampleOps).items := by
  have hv : ∀ op ∈ sampleOps, validOp op := by
    intro op hop
    simp only [sampleOps, List.mem_cons, List.not_mem_nil, or_false] at hop
    rcases hop with rfl | rfl | rfl | rfl | rfl | rfl | rfl | rfl
    · exact ⟨by decide, by norm_num, by decide⟩
    · exact ⟨by decide, by norm_num, by decide⟩
    · exact trivial
    · exact ⟨by decide, le_refl 0, by decide⟩
    · exact trivial
    · exact trivial
    · exact ⟨by decide, by norm_num, by decide⟩
    · exact trivial
  exact ⟨hv, reachable_items_invariant sampleOps hv⟩

/-- C7: checkout on a non-empty cart saves a receipt whose rows are, in
order, the header row, one row per stored item in insertion order with
name, quantity and 2-decimal price and line total, a blank separator row,
and the six summary rows with 1-decimal percentages and 2-decimal amounts;
afterwards the cart is the empty cart with both percentages reset to 0. -/
theorem checkout_receipt_spec (c : CashierCart) (h : c.items ≠ []) :
    checkoutStep c = (emptyCart, CheckoutResult.saved (save_receipt c)) ∧
    (save_receipt c).length = c.items.length + 8 ∧
    (save_receipt c).get? 0 = some ["Item", "Qty", "Price", "Total"] ∧
    (∀ i, i < c.items.length →
      (save_receipt c).get? (i + 1)
        = (c.items.get? i).map (fun e => itemRow e.2)) ∧
    (save_receipt c).get? (c.items.length + 1) = some [] ∧
    (save_receipt c).drop (c.items.length + 2)
      = [["Subtotal", fmtFixed 2 c.subtotal],
         ["Discount %", fmtFixed 1 c.discount_percent],
         ["Discount Amount", fmtFixed 2 c.discount_amount],
         ["Tax %", fmtFixed 1 c.tax_percent],
         ["Tax Amount", fmtFixed 2 c.tax_amount],
         ["Total Due", fmtFixed 2 c.total_due]] := by
  refine ⟨?_, ?_, rfl, ?_, ?_, ?_⟩
  · simp [checkoutStep, h, CashierCart.clear, emptyCart]
  · simp [save_receipt, summaryRows]
  · intro i hi
    show (["Item", "Qty", "Price", "Total"] ::
      (c.items.map (fun e => itemRow e.2) ++ [] :: summaryRows c)).get? (i + 1)
        = (c.items.get? i).map (fun e => itemRow e.2)
    rw [List.get?_cons_succ, List.get?_append (by simpa using hi),
      List.get?_map]
  · show (["Item", "Qty", "Price", "Total"] ::
      (c.items.map (fun e => itemRow e.2) ++ [] :: summaryRows c)).get?
        (c.items.length + 1) = some []
    rw [List.get?_cons_succ,
      List.get?_append_right (by simp)]
    simp
  · have hpre : save_receipt c
        = (["Item", "Qty", "Price", "Total"] ::
            (c.items.map (fun e => itemRow e.2) ++ [[]])) ++ summaryRows c := by
      simp [save_receipt]
    rw [hpre]
    have hlen : (["Item", "Qty", "Price", "Total"] ::
        (c.items.map (fun e => itemRow e.2) ++ [[]])).length
          = c.items.length + 2 := by
      simp
    rw [← hlen, List.drop_left]
    rfl

/-- Witness for C7 at a one-item cart with 10% discount and 5% tax. -/
theorem checkout_receipt_spec_witness :
    sampleOneCart.items ≠ [] ∧
    (checkoutStep sampleOneCart
        = (emptyCart, CheckoutResult.saved (save_receipt sampleOneCart)) ∧
     (save_receipt sampleOneCart).length = sampleOneCart.items.length + 8 ∧
     (save_receipt sampleOneCart).get? 0
        = some ["Item", "Qty", "Price", "Total"] ∧
     (∀ i, i < sampleOneCart.items.length →
       (save_receipt sampleOneCart).get? (i + 1)
         = (sampleOneCart.items.get? i).map (fun e => itemRow e.2)) ∧
     (save_receipt sampleOneCart).get? (sampleOneCart.items.length + 1)
        = some [] ∧
     (save_receipt sampleOneCart).drop (sampleOneCart.items.length + 2)
        = [["Subtotal", fmtFixed 2 sampleOneCart.subtotal],
           ["Discount %", fmtFixed 1 sampleOneCart.discount_percent],
           ["Discount Amount", fmtFixed 2 sampleOneCart.discount_amount],
           ["Tax %", fmtFixed 1 sampleOneCart.tax_percent],
           ["Tax Amount", fmtFixed 2 sampleOneCart.tax_amount],
           ["Total Due", fmtFixed 2 sampleOneCart.total_due]]) :=
  ⟨by decide, checkout_receipt_spec sampleOneCart (by decide)⟩

/-! ### Concrete evaluations of the embedding -/

theorem roundHalfEven_intCast (n : ℤ) : roundHalfEven ((n : ℤ) : ℚ) = n := by
  norm_num [roundHalfEven]

example : (emptyCart.add_item "Coffee" (7/2) 2).subtotal = 7 := by
  show (7/2 : ℚ) * (2 : ℤ) + 0 = 7
  norm_num

example :
    ((emptyCart.add_item "Coffee" (7/2) 2).add_item " coffee " 4 1).subtotal
      = 12 := by
  show (4 : ℚ) * (((2 : ℤ) + 1 : ℤ) : ℚ) + 0 = 12
  norm_num

example :
    lookupItem ((emptyCart.add_item "Coffee" (7/2) 2).add_item
      " coffee " 4 1).items "coffee" = some ⟨"Coffee", 4, (2 : ℤ) + 1⟩ :=
  rfl

example : fmtFixed 2 (7/2) = "3.50" := by
  have h : roundHalfEven ((7/2 : ℚ) * (10 : ℤ) ^ 2) = 350 := by
    have h2 : ((7/2 : ℚ) * (10 : ℤ) ^ 2) = ((350 : ℤ) : ℚ) := by
      push_cast
      norm_num
    rw [h2, roundHalfEven_intCast]
  simp only [fmtFixed, h]
  decide

example : fmtFixed 1 (10 : ℚ) = "10.0" := by
  have h : roundHalfEven ((10 : ℚ) * (10 : ℤ) ^ 1) = 100 := by
    have h2 : ((10 : ℚ) * (10 : ℤ) ^ 1) = ((100 : ℤ) : ℚ) := by
      push_cast
      norm_num
    rw [h2, roundHalfEven_intCast]
  simp only [fmtFixed, h]
  decide
